import Mathlib

/-!
# CryptoPulse batch subsystem: shallow embedding and verification

This file embeds the server-side batch-collection subsystem of the
CryptoPulse repository (src/app/api.py, src/app/db.py) in Lean 4 and
proves or refutes the frozen specification claims about it.

Modelling conventions:
- The shared dictionary BATCH_STATE (api.py lines 276-285) is the record
  `BatchState`.  Timestamps produced by the helper that formats the
  current UTC time (api.py line 96) are abstracted as natural-number
  clock readings, supplied as an explicit argument to every operation
  that reads the clock.
- Python floats (the delay and prices) are modelled as rationals.
- A Python exception is abstracted as its type name plus message
  (`PyError`); the f-string in api.py line 315 is `errString`.
- The HTTP endpoint bodies (api.py lines 326-382) are pure functions of
  the prior state; an endpoint that mutates the global returns the new
  state.
- The background thread body `_run_batch` (api.py lines 289-318),
  interleaved with concurrent stop/reset calls, is the labelled
  small-step relation `Step` further below.
-/

/-- A Python exception, abstracted as its class name and message. -/
structure PyError where
  name : String
  msg : String
  deriving DecidableEq, Repr

/-- The failure description stored in `last_error`
(the f-string in api.py line 315). -/
def errString (e : PyError) : String :=
  e.name ++ ": " ++ e.msg

/-- The shared run-state record BATCH_STATE (api.py lines 276-285).
Field order follows the source dictionary. -/
structure BatchState where
  running : Bool
  done : Nat
  fail : Nat
  target : Nat
  delay : Option ℚ
  started_at : Option Nat
  updated_at : Option Nat
  last_error : Option String
  deriving DecidableEq, Repr

/-- The value BATCH_STATE is created with at import time
(api.py lines 276-285). -/
def defaultState : BatchState :=
  { running := false, done := 0, fail := 0, target := 0, delay := none,
    started_at := none, updated_at := none, last_error := none }

/-- The record written by the initial `_set` call of `_run_batch`
(api.py lines 295-303): every key of BATCH_STATE is assigned, with
`updated_at` freshened by `_set` itself. -/
def initState (n : Nat) (d : ℚ) (now : Nat) : BatchState :=
  { running := true, done := 0, fail := 0, target := n, delay := some d,
    started_at := some now, updated_at := some now, last_error := none }

/-- The record written by `batch_reset` (api.py lines 370-381). -/
def resetState (now : Nat) : BatchState :=
  { running := false, done := 0, fail := 0, target := 0, delay := none,
    started_at := none, updated_at := some now, last_error := none }

/-- Response of the start endpoint `ingest_batch` (api.py lines 326-334):
either the current snapshot tagged already_running, or the started tag
with the chosen parameters and a fresh timestamp. -/
inductive StartResp where
  | alreadyRunning (snapshot : BatchState)
  | started (target : Nat) (delay : ℚ) (started_at : Nat)
  deriving DecidableEq, Repr

/-- The endpoint body `ingest_batch` (api.py lines 326-334).  Under the
lock it tests `running`; when already running it returns the snapshot and
changes nothing.  Otherwise it starts one background thread running
`_run_batch count delay` and returns the started response.  The Boolean
result records whether a thread was spawned.  Note that the endpoint
itself writes nothing to BATCH_STATE in either branch: initialization of
the record is performed by the spawned thread. -/
def ingest_batch (count : Nat) (delay : ℚ) (now : Nat) (s : BatchState) :
    StartResp × BatchState × Bool :=
  if s.running then (StartResp.alreadyRunning s, s, false)
  else (StartResp.started count delay now, s, true)

/-- Response of the status endpoint (api.py lines 342-348). -/
structure StatusResp where
  status : String
  eta_seconds : Nat
  snapshot : BatchState
  deriving DecidableEq, Repr

/-- The endpoint body `batch_status` (api.py lines 342-348): takes a
snapshot under the lock, computes the remaining count by truncated
subtraction, defaults a missing delay to zero, and returns the ETA.
Python truncation toward zero coincides with the floor here because the
product is nonnegative whenever the guard holds.  The function reads the
state and writes nothing. -/
def batch_status (s : BatchState) : StatusResp :=
  let remaining : Nat := s.target - s.done
  let d : ℚ := s.delay.getD 0
  let eta : Nat :=
    if s.running = true ∧ 0 < d then (Int.floor ((remaining : ℚ) * d)).toNat
    else 0
  { status := "ok", eta_seconds := eta, snapshot := s }

/-- The ETA exactly as the specification words it: floor of
max(0, target - done) times delay_seconds when running with positive
delay, else zero. -/
def etaSpec (s : BatchState) : ℤ :=
  let remaining : ℤ := max 0 ((s.target : ℤ) - (s.done : ℤ))
  if s.running = true ∧ 0 < s.delay.getD 0 then
    Int.floor ((remaining : ℚ) * s.delay.getD 0)
  else 0

/-- The endpoint body `batch_stop` (api.py lines 356-360): under the lock
sets `running` to false and freshens `updated_at`, then returns the new
snapshot tagged stopping. -/
def batch_stop (now : Nat) (s : BatchState) : String × BatchState :=
  ("stopping", { s with running := false, updated_at := some now })

/-- The endpoint body `batch_reset` (api.py lines 368-382): under the
lock overwrites every field of BATCH_STATE with its default, freshening
`updated_at`, regardless of the prior state, and returns the snapshot
tagged reset. -/
def batch_reset (now : Nat) (_s : BatchState) : String × BatchState :=
  ("reset", resetState now)

/-!
## The Price Store (src/app/db.py)

The prices table has `ts_utc` as its primary key (db.py lines 20-25); it
is modelled as an association list in insertion order.  `upsert_price`
(db.py lines 33-52) has a Postgres branch (INSERT .. ON CONFLICT DO
NOTHING) and a SQLite branch (a plain INSERT inside a try/except whose
handler discards every exception).  A raised SQLite error is either the
primary-key conflict or an arbitrary injected fault, standing for any
other failure of the INSERT.
-/

/-- The prices table, keyed by `ts_utc`, in insertion order. -/
abbrev PriceDb := List (String × ℚ)

/-- Whether the table already holds a row with the given key. -/
def hasKey (db : PriceDb) (ts : String) : Bool :=
  db.any (fun r => r.1 == ts)

/-- Number of rows with the given key. -/
def countKey (db : PriceDb) (ts : String) : Nat :=
  (db.filter (fun r => r.1 == ts)).length

/-- The price stored under the given key (first matching row), if any. -/
def getKey (db : PriceDb) (ts : String) : Option ℚ :=
  (db.find? (fun r => r.1 == ts)).map (fun r => r.2)

/-- One SQLite INSERT into a table whose primary key is `ts_utc`
(db.py lines 48-50): it may raise an arbitrary injected fault, raises an
integrity error on a duplicate key, and otherwise appends the row. -/
def sqlite_insert (db : PriceDb) (ts : String) (p : ℚ)
    (fault : Option PyError) : Except PyError PriceDb :=
  match fault with
  | some e => Except.error e
  | none =>
      if hasKey db ts then
        Except.error (⟨"IntegrityError", "UNIQUE constraint failed: prices.ts_utc"⟩)
      else Except.ok (db ++ [(ts, p)])

/-- The SQLite branch of `upsert_price` (db.py lines 45-52) with its
error channel made explicit: the try/except turns every raised error
into a normal return, leaving the table as the INSERT left it (unchanged
when the INSERT raised). -/
def upsert_price_sqliteE (db : PriceDb) (ts : String) (p : ℚ)
    (fault : Option PyError) : Except PyError PriceDb :=
  match sqlite_insert db ts p fault with
  | Except.ok db' => Except.ok db'
  | Except.error _ => Except.ok db

/-- The SQLite branch of `upsert_price` as the state transformer it is
(it can never raise). -/
def upsert_price_sqlite (db : PriceDb) (ts : String) (p : ℚ)
    (fault : Option PyError) : PriceDb :=
  match upsert_price_sqliteE db ts p fault with
  | Except.ok db' => db'
  | Except.error _ => db

/-- The Postgres branch of `upsert_price` (db.py lines 36-44):
INSERT .. ON CONFLICT (ts_utc) DO NOTHING. -/
def upsert_price_pg (db : PriceDb) (ts : String) (p : ℚ) : PriceDb :=
  if hasKey db ts then db else db ++ [(ts, p)]

/-- One body of the batch loop's try/except (api.py lines 309-315) on
the SQLite backend, as a pure function: given the fetch outcome, the
table, and an injected persist fault, it returns the updated run state
and table.  On any raised error it increments `fail` and records
`last_error`; otherwise it increments `done`.  The persist step is
`upsert_price_sqliteE`, whose errors were already swallowed inside
db.py. -/
def batch_iteration (st : BatchState) (now : Nat)
    (fetchRes : Except PyError (String × ℚ)) (db : PriceDb)
    (persistFault : Option PyError) : BatchState × PriceDb :=
  match fetchRes with
  | Except.error e =>
      ({ st with fail := st.fail + 1, last_error := some (errString e),
                 updated_at := some now }, db)
  | Except.ok (ts, p) =>
      match upsert_price_sqliteE db ts p persistFault with
      | Except.error e =>
          ({ st with fail := st.fail + 1, last_error := some (errString e),
                     updated_at := some now }, db)
      | Except.ok db' =>
          ({ st with done := st.done + 1, updated_at := some now }, db')

/-!
## The background loop as a small-step system (api.py lines 289-318)

`_run_batch n delay` runs on its own thread.  Its control points:

- `init n d`: about to execute the initial locked `_set` (lines 295-303);
  the thread is at this point from the moment `ingest_batch` spawned it
  until it is first scheduled.
- `body i`: at the top of the for-loop with `i` body executions left;
  the next action is the locked `running` check (lines 306-308), which
  exits the loop when `i = 0` (range exhausted) or `running` is false.
- `work i`: about to attempt fetch plus persist (lines 310-311); the
  environment decides success or an exception.
- `readD i` / `readF i e`: about to evaluate the argument expression
  `BATCH_STATE[..] + 1` of `_set` (line 312 resp. 315).  This read is
  NOT under the lock: it happens before `_set` acquires it.
- `writeD i v` / `writeF i e v`: holding the staged value `v`, about to
  perform the locked `_set` that stores `v + 1` (and, on failure, the
  error text), freshening `updated_at`.
- `sleepP i`: the `polite_sleep` call (line 316).
- `exitSet`: about to execute the final `_set(running=False)` (line 318).
- `halted`: the thread has returned.

Concurrently, the stop and reset endpoint bodies (each one locked block)
may run between any two thread steps; the status endpoint reads only and
is omitted.  Each `Step` constructor is one lock-atomic (or lock-free)
action; timestamps drawn from the clock are carried on the labels.
-/

/-- Control point of the `_run_batch` thread. -/
inductive LoopPC where
  | init (n : Nat) (d : ℚ)
  | body (i : Nat)
  | work (i : Nat)
  | readD (i : Nat)
  | writeD (i : Nat) (v : Nat)
  | readF (i : Nat) (e : PyError)
  | writeF (i : Nat) (e : PyError) (v : Nat)
  | sleepP (i : Nat)
  | exitSet
  | halted
  deriving DecidableEq, Repr

/-- A system configuration: the shared record plus the loop thread's
control point. -/
structure Sys where
  st : BatchState
  pc : LoopPC
  deriving DecidableEq, Repr

/-- Action labels.  `initA`, `checkA`, `fetchA`, `failA`, `readA`,
`writeA`, `sleepA` and `exitA` are steps of the loop thread; `stopA` and
`resetA` are the concurrent endpoint bodies. -/
inductive Act where
  | initA (now : Nat)
  | checkA
  | fetchA
  | failA (e : PyError)
  | readA
  | writeA (now : Nat)
  | sleepA
  | exitA (now : Nat)
  | stopA (now : Nat)
  | resetA (now : Nat)
  deriving DecidableEq, Repr

/-- Whether an action is the reset endpoint body. -/
def Act.isReset : Act → Bool
  | Act.resetA _ => true
  | _ => false

/-- Whether an action is a step of the loop thread (rather than a
concurrent endpoint body). -/
def Act.isLoop : Act → Bool
  | Act.stopA _ => false
  | Act.resetA _ => false
  | _ => true

/-- Whether an action is the loop thread's initial `_set`. -/
def Act.isInit : Act → Bool
  | Act.initA _ => true
  | _ => false

/-- Actions whose locked block assigns the `running` key: the loop's
initial `_set`, its final `_set`, and the stop and reset endpoint
bodies. -/
def Act.assignsRunning : Act → Bool
  | Act.initA _ => true
  | Act.exitA _ => true
  | Act.stopA _ => true
  | Act.resetA _ => true
  | _ => false

/-- One step of the batch system: an atomic action of the loop thread,
or one locked endpoint body running concurrently. -/
inductive Step : Sys → Act → Sys → Prop where
  | doInit (st : BatchState) (n : Nat) (d : ℚ) (now : Nat) :
      Step ⟨st, LoopPC.init n d⟩ (Act.initA now)
        ⟨initState n d now, LoopPC.body n⟩
  | exhaust (st : BatchState) :
      Step ⟨st, LoopPC.body 0⟩ Act.checkA ⟨st, LoopPC.exitSet⟩
  | checkRun (st : BatchState) (i : Nat) (h : st.running = true)
      (hi : i ≠ 0) :
      Step ⟨st, LoopPC.body i⟩ Act.checkA ⟨st, LoopPC.work i⟩
  | checkStop (st : BatchState) (i : Nat) (h : st.running = false)
      (hi : i ≠ 0) :
      Step ⟨st, LoopPC.body i⟩ Act.checkA ⟨st, LoopPC.exitSet⟩
  | fetchOk (st : BatchState) (i : Nat) :
      Step ⟨st, LoopPC.work i⟩ Act.fetchA ⟨st, LoopPC.readD i⟩
  | fetchFail (st : BatchState) (i : Nat) (e : PyError) :
      Step ⟨st, LoopPC.work i⟩ (Act.failA e) ⟨st, LoopPC.readF i e⟩
  | readDone (st : BatchState) (i : Nat) :
      Step ⟨st, LoopPC.readD i⟩ Act.readA ⟨st, LoopPC.writeD i st.done⟩
  | writeDone (st : BatchState) (i : Nat) (v : Nat) (now : Nat) :
      Step ⟨st, LoopPC.writeD i v⟩ (Act.writeA now)
        ⟨{ st with done := v + 1, updated_at := some now }, LoopPC.sleepP i⟩
  | readFail (st : BatchState) (i : Nat) (e : PyError) :
      Step ⟨st, LoopPC.readF i e⟩ Act.readA ⟨st, LoopPC.writeF i e st.fail⟩
  | writeFail (st : BatchState) (i : Nat) (e : PyError) (v : Nat)
      (now : Nat) :
      Step ⟨st, LoopPC.writeF i e v⟩ (Act.writeA now)
        ⟨{ st with fail := v + 1, last_error := some (errString e),
                   updated_at := some now }, LoopPC.sleepP i⟩
  | sleepDone (st : BatchState) (i : Nat) :
      Step ⟨st, LoopPC.sleepP i⟩ Act.sleepA ⟨st, LoopPC.body (i - 1)⟩
  | exitDone (st : BatchState) (now : Nat) :
      Step ⟨st, LoopPC.exitSet⟩ (Act.exitA now)
        ⟨{ st with running := false, updated_at := some now }, LoopPC.halted⟩
  | stopCall (st : BatchState) (pc : LoopPC) (now : Nat) :
      Step ⟨st, pc⟩ (Act.stopA now)
        ⟨{ st with running := false, updated_at := some now }, pc⟩
  | resetCall (st : BatchState) (pc : LoopPC) (now : Nat) :
      Step ⟨st, pc⟩ (Act.resetA now) ⟨resetState now, pc⟩

/-- A finite trace of steps. -/
inductive Steps : Sys → List Act → Sys → Prop where
  | refl (s : Sys) : Steps s [] s
  | cons {s s' s'' : Sys} {a : Act} {tr : List Act} :
      Step s a s' → Steps s' tr s'' → Steps s (a :: tr) s''

/-- No action of the trace is the reset endpoint body. -/
def NoReset (tr : List Act) : Prop :=
  ∀ a ∈ tr, a.isReset = false

/-- Whether the loop thread is past its initial `_set`.  No step leads
back to the `init` control point. -/
def LoopPC.pastInit : LoopPC → Bool
  | LoopPC.init _ _ => false
  | _ => true

/-- Upper bound on the number of counter increments the loop thread can
still perform: one per remaining body, plus the in-flight one. -/
def LoopPC.pend : LoopPC → Nat
  | LoopPC.init n _ => n
  | LoopPC.body i => i
  | LoopPC.work i => i
  | LoopPC.readD i => i
  | LoopPC.writeD i _ => i
  | LoopPC.readF i _ => i
  | LoopPC.writeF i _ _ => i
  | LoopPC.sleepP i => i - 1
  | LoopPC.exitSet => 0
  | LoopPC.halted => 0

/-- Control-point coherence: interior points of a loop body carry a
positive remaining count, and absent an interleaved reset the staged
value of a pending locked write equals the current counter. -/
def pcOk (st : BatchState) : LoopPC → Prop
  | LoopPC.work i => 1 ≤ i
  | LoopPC.readD i => 1 ≤ i
  | LoopPC.writeD i v => 1 ≤ i ∧ v = st.done
  | LoopPC.readF i _ => 1 ≤ i
  | LoopPC.writeF i _ v => 1 ≤ i ∧ v = st.fail
  | _ => True

/-- The run invariant maintained by every reset-free step from the
post-initialization configuration. -/
def RunInv (s : Sys) : Prop :=
  s.pc.pastInit = true ∧
  s.st.done + s.st.fail + s.pc.pend ≤ s.st.target ∧
  pcOk s.st s.pc

theorem inv_step {s s' : Sys} {a : Act} (hstep : Step s a s')
    (hr : a.isReset = false) (hinv : RunInv s) : RunInv s' := by
  obtain ⟨hpi, hle, hok⟩ := hinv
  cases hstep with
  | doInit st n d now => simp [LoopPC.pastInit] at hpi
  | exhaust st =>
      exact ⟨rfl, by simpa [LoopPC.pend] using hle, trivial⟩
  | checkRun st i h hi =>
      exact ⟨rfl, by simpa [LoopPC.pend] using hle,
        by simpa [pcOk] using Nat.one_le_iff_ne_zero.mpr hi⟩
  | checkStop st i h hi =>
      refine ⟨rfl, ?_, trivial⟩
      simp only [LoopPC.pend] at hle ⊢
      omega
  | fetchOk st i =>
      exact ⟨rfl, by simpa [LoopPC.pend] using hle, by simpa [pcOk] using hok⟩
  | fetchFail st i e =>
      exact ⟨rfl, by simpa [LoopPC.pend] using hle, by simpa [pcOk] using hok⟩
  | readDone st i =>
      exact ⟨rfl, by simpa [LoopPC.pend] using hle,
        ⟨by simpa [pcOk] using hok, rfl⟩⟩
  | writeDone st i v now =>
      obtain ⟨hi, hv⟩ := hok
      refine ⟨rfl, ?_, trivial⟩
      simp only [LoopPC.pend] at hle ⊢
      have hv' : v = st.done := hv
      omega
  | readFail st i e =>
      exact ⟨rfl, by simpa [LoopPC.pend] using hle,
        ⟨by simpa [pcOk] using hok, rfl⟩⟩
  | writeFail st i e v now =>
      obtain ⟨hi, hv⟩ := hok
      refine ⟨rfl, ?_, trivial⟩
      simp only [LoopPC.pend] at hle ⊢
      have hv' : v = st.fail := hv
      omega
  | sleepDone st i =>
      exact ⟨rfl, by simpa [LoopPC.pend] using hle, trivial⟩
  | exitDone st now =>
      exact ⟨rfl, by simpa [LoopPC.pend] using hle, trivial⟩
  | stopCall st pc now =>
      refine ⟨hpi, hle, ?_⟩
      cases pc <;> exact hok
  | resetCall st pc now => simp [Act.isReset] at hr

theorem inv_steps {s s' : Sys} {tr : List Act} (hsteps : Steps s tr s')
    (hnr : NoReset tr) (hinv : RunInv s) : RunInv s' := by
  induction hsteps with
  | refl s => exact hinv
  | cons hstep _ ih =>
      rename_i s s1 s2 a tr' _
      exact ih (fun b hb => hnr b (List.mem_cons_of_mem _ hb))
        (inv_step hstep (hnr a (List.mem_cons_self _ _)) hinv)

/-- The post-initialization configuration satisfies the run invariant. -/
theorem inv_initState (n : Nat) (d : ℚ) (now : Nat) :
    RunInv ⟨initState n d now, LoopPC.body n⟩ :=
  ⟨rfl, by simp [initState, LoopPC.pend], trivial⟩

/-- How each single reset-free step moves the two counters: it leaves
both unchanged, or increments exactly one of them by exactly one. -/
theorem counters_step {s s' : Sys} {a : Act} (hstep : Step s a s')
    (hr : a.isReset = false) (hinv : RunInv s) :
    (s'.st.done = s.st.done ∧ s'.st.fail = s.st.fail) ∨
    (s'.st.done = s.st.done + 1 ∧ s'.st.fail = s.st.fail) ∨
    (s'.st.fail = s.st.fail + 1 ∧ s'.st.done = s.st.done) := by
  obtain ⟨hpi, hle, hok⟩ := hinv
  cases hstep with
  | doInit st n d now => simp [LoopPC.pastInit] at hpi
  | writeDone st i v now =>
      obtain ⟨hi, hv⟩ := hok
      right; left
      exact ⟨by simp [show v = st.done from hv], rfl⟩
  | writeFail st i e v now =>
      obtain ⟨hi, hv⟩ := hok
      right; right
      exact ⟨by simp [show v = st.fail from hv], rfl⟩
  | resetCall st pc now => simp [Act.isReset] at hr
  | exhaust st => exact Or.inl ⟨rfl, rfl⟩
  | checkRun st i h hi => exact Or.inl ⟨rfl, rfl⟩
  | checkStop st i h hi => exact Or.inl ⟨rfl, rfl⟩
  | fetchOk st i => exact Or.inl ⟨rfl, rfl⟩
  | fetchFail st i e => exact Or.inl ⟨rfl, rfl⟩
  | readDone st i => exact Or.inl ⟨rfl, rfl⟩
  | readFail st i e => exact Or.inl ⟨rfl, rfl⟩
  | sleepDone st i => exact Or.inl ⟨rfl, rfl⟩
  | exitDone st now => exact Or.inl ⟨rfl, rfl⟩
  | stopCall st pc now => exact Or.inl ⟨rfl, rfl⟩

/-- Weight of an action toward the count of locked counter writes. -/
def Act.w1 : Act → Nat
  | Act.writeA _ => 1
  | _ => 0

/-- Number of locked counter writes (`_set` calls storing a counter) in
a trace. -/
def countW (tr : List Act) : Nat :=
  (tr.map Act.w1).sum

/-- Bound on the locked counter writes the loop thread can still
perform once `running` is false: only an in-flight body finishes. -/
def LoopPC.wb : LoopPC → Nat
  | LoopPC.work _ => 1
  | LoopPC.readD _ => 1
  | LoopPC.writeD _ _ => 1
  | LoopPC.readF _ _ => 1
  | LoopPC.writeF _ _ _ => 1
  | _ => 0

theorem stopped_step {s s' : Sys} {a : Act} (hstep : Step s a s')
    (hs : s.st.running = false) (hpi : s.pc.pastInit = true) :
    s'.st.running = false ∧ s'.pc.pastInit = true ∧
    a.w1 + s'.pc.wb ≤ s.pc.wb := by
  cases hstep with
  | doInit st n d now => simp [LoopPC.pastInit] at hpi
  | checkRun st i h hi =>
      exact absurd (hs.symm.trans h) (by simp)
  | exhaust st => exact ⟨hs, rfl, by simp [Act.w1, LoopPC.wb]⟩
  | checkStop st i h hi => exact ⟨hs, rfl, by simp [Act.w1, LoopPC.wb]⟩
  | fetchOk st i => exact ⟨hs, rfl, by simp [Act.w1, LoopPC.wb]⟩
  | fetchFail st i e => exact ⟨hs, rfl, by simp [Act.w1, LoopPC.wb]⟩
  | readDone st i => exact ⟨hs, rfl, by simp [Act.w1, LoopPC.wb]⟩
  | writeDone st i v now => exact ⟨hs, rfl, by simp [Act.w1, LoopPC.wb]⟩
  | readFail st i e => exact ⟨hs, rfl, by simp [Act.w1, LoopPC.wb]⟩
  | writeFail st i e v now => exact ⟨hs, rfl, by simp [Act.w1, LoopPC.wb]⟩
  | sleepDone st i => exact ⟨hs, rfl, by simp [Act.w1, LoopPC.wb]⟩
  | exitDone st now => exact ⟨rfl, rfl, by simp [Act.w1, LoopPC.wb]⟩
  | stopCall st pc now =>
      exact ⟨rfl, hpi, by simp [Act.w1]⟩
  | resetCall st pc now =>
      exact ⟨rfl, hpi, by simp [Act.w1]⟩

theorem stopped_steps {s s' : Sys} {tr : List Act} (hsteps : Steps s tr s')
    (hs : s.st.running = false) (hpi : s.pc.pastInit = true) :
    s'.st.running = false ∧ s'.pc.pastInit = true ∧
    countW tr + s'.pc.wb ≤ s.pc.wb := by
  induction hsteps with
  | refl s => exact ⟨hs, hpi, by simp [countW]⟩
  | cons hstep _ ih =>
      rename_i s s1 s2 a tr' _
      obtain ⟨h1, h2, h3⟩ := stopped_step hstep hs hpi
      obtain ⟨g1, g2, g3⟩ := ih h1 h2
      refine ⟨g1, g2, ?_⟩
      simp only [countW, List.map_cons, List.sum_cons] at g3 ⊢
      omega

/-- Every control point allows at most one further locked counter
write once the run is stopped. -/
theorem wb_le_one (pc : LoopPC) : pc.wb ≤ 1 := by
  cases pc <;> simp [LoopPC.wb]

/-!
## Claim theorems
-/

/-- C1 (amended).  A start call made while `running` is false leaves the
RunState record untouched, schedules exactly one background loop, and
returns the started status with the chosen parameters; it is the
scheduled loop's first action — not the start call itself — that
atomically initializes the record to running=true, done=0, fail=0,
target=count, delay=count's delay, started_at=now, updated_at=now and no
last_error.  The claim's assertion that the record already holds the
initialized values once start has returned does not hold of the code. -/
theorem c1_start_schedules_loop (count : Nat) (d : ℚ) (now : Nat)
    (s : BatchState) (h : s.running = false) :
    ingest_batch count d now s = (StartResp.started count d now, s, true) ∧
    (∀ (st : BatchState) (now2 : Nat) (s' : Sys),
        Step ⟨st, LoopPC.init count d⟩ (Act.initA now2) s' →
        s' = ⟨initState count d now2, LoopPC.body count⟩) ∧
    initState count d now =
      { running := true, done := 0, fail := 0, target := count,
        delay := some d, started_at := some now, updated_at := some now,
        last_error := none } := by
  refine ⟨by simp [ingest_batch, h], ?_, rfl⟩
  intro st now2 s' hstep
  cases hstep
  rfl

/-- C1 witness: the amended theorem applied at a concrete
non-running state. -/
theorem c1_start_schedules_loop_witness :
    defaultState.running = false ∧
    ingest_batch 3 2 7 defaultState =
      (StartResp.started 3 2 7, defaultState, true) :=
  ⟨rfl, (c1_start_schedules_loop 3 2 7 defaultState rfl).1⟩

/-- C1 counterexample.  Start on a non-running state whose `done` is
still 5 from an earlier run: the call returns the started status, yet
the record it leaves behind still has running=false and done=5 — the
initialization has not happened when start returns, because it is
performed later by the spawned thread. -/
theorem c1_start_returns_stale_state :
    (ingest_batch 3 2 7 ⟨false, 5, 0, 9, none, none, none, none⟩).1 =
      StartResp.started 3 2 7 ∧
    (ingest_batch 3 2 7 ⟨false, 5, 0, 9, none, none, none, none⟩).2.1 =
      ⟨false, 5, 0, 9, none, none, none, none⟩ ∧
    ¬ ((ingest_batch 3 2 7 ⟨false, 5, 0, 9, none, none, none, none⟩).2.1).running = true ∧
    ¬ ((ingest_batch 3 2 7 ⟨false, 5, 0, 9, none, none, none, none⟩).2.1).done = 0 := by
  refine ⟨rfl, rfl, by decide, by decide⟩

/-- C2.  A start call made while `running` is true returns the
already-running status with the current snapshot, leaves the record
unchanged, and spawns no thread. -/
theorem c2_already_running_noop (count : Nat) (d : ℚ) (now : Nat)
    (s : BatchState) (h : s.running = true) :
    ingest_batch count d now s = (StartResp.alreadyRunning s, s, false) := by
  simp [ingest_batch, h]

/-- C2 witness: the theorem applied at a concrete running state. -/
theorem c2_already_running_noop_witness :
    (initState 2 1 0).running = true ∧
    ingest_batch 5 3 9 (initState 2 1 0) =
      (StartResp.alreadyRunning (initState 2 1 0), initState 2 1 0, false) :=
  ⟨rfl, c2_already_running_noop 5 3 9 (initState 2 1 0) rfl⟩

/-- C6.  The status endpoint returns exactly the specification's ETA:
the floor of max(0, target - done) times the delay when running with a
positive delay, zero otherwise; in particular 30 for target=10, done=4,
delay=5 while running, and 0 whenever not running; it returns the
snapshot untouched (it writes nothing by construction) and is safe on
the all-default record. -/
theorem c6_eta_formula :
    (∀ s : BatchState,
        ((batch_status s).eta_seconds : ℤ) = etaSpec s ∧
        (batch_status s).snapshot = s ∧ (batch_status s).status = "ok") ∧
    (batch_status
        { defaultState with
            running := true, done := 4, target := 10,
            delay := some 5 }).eta_seconds = 30 ∧
    (∀ s : BatchState, s.running = false →
        (batch_status s).eta_seconds = 0) ∧
    batch_status defaultState =
      { status := "ok", eta_seconds := 0, snapshot := defaultState } := by
  refine ⟨?_, by norm_num [batch_status, defaultState]; rfl, ?_, by decide⟩
  · intro s
    refine ⟨?_, rfl, rfl⟩
    simp only [batch_status, etaSpec]
    by_cases hc : s.running = true ∧ 0 < s.delay.getD 0
    · rw [if_pos hc, if_pos hc]
      have harg : (0 : ℚ) ≤ ((s.target - s.done : ℕ) : ℚ) * s.delay.getD 0 :=
        mul_nonneg (by positivity) (le_of_lt hc.2)
      have hsub : ((s.target - s.done : ℕ) : ℤ) =
          max 0 ((s.target : ℤ) - (s.done : ℤ)) := by omega
      have hcast : ((s.target - s.done : ℕ) : ℚ) =
          (((max 0 ((s.target : ℤ) - (s.done : ℤ))) : ℤ) : ℚ) := by
        exact_mod_cast congrArg (fun z : ℤ => (z : ℚ)) hsub
      rw [Int.toNat_of_nonneg (Int.floor_nonneg.mpr harg), hcast]
    · rw [if_neg hc, if_neg hc]
      rfl
  · intro s h
    simp [batch_status, h]

/-- C6 witness: the running=false conjunct applied at a concrete state
with a large remaining count. -/
theorem c6_eta_formula_witness :
    ((⟨false, 0, 0, 100, some 5, none, none, none⟩ : BatchState).running
        = false) ∧
    (batch_status ⟨false, 0, 0, 100, some 5, none, none, none⟩).eta_seconds
        = 0 :=
  ⟨rfl, c6_eta_formula.2.2.1 ⟨false, 0, 0, 100, some 5, none, none, none⟩ rfl⟩

/-- C7.  The reset endpoint unconditionally reinitializes the record to
running=false, done=0, fail=0, target=0, no delay, no started_at, no
last_error, updated_at=now, returns the reset status with that snapshot,
and a subsequent status call reports exactly those defaults with a zero
ETA. -/
theorem c7_reset_restores_defaults (s : BatchState) (now : Nat) :
    batch_reset now s = ("reset", resetState now) ∧
    resetState now =
      { running := false, done := 0, fail := 0, target := 0, delay := none,
        started_at := none, updated_at := some now, last_error := none } ∧
    (batch_status (resetState now)).snapshot.running = false ∧
    (batch_status (resetState now)).snapshot.done = 0 ∧
    (batch_status (resetState now)).snapshot.fail = 0 ∧
    (batch_status (resetState now)).snapshot.target = 0 ∧
    (batch_status (resetState now)).snapshot.delay = none ∧
    (batch_status (resetState now)).snapshot.last_error = none ∧
    (batch_status (resetState now)).eta_seconds = 0 := by
  refine ⟨rfl, rfl, rfl, rfl, rfl, rfl, rfl, rfl, ?_⟩
  simp [batch_status, resetState]

/-- C3 (amended).  In every state reachable during a run in which the
reset endpoint is not invoked, done + fail never exceeds target; and
each further reset-free step either leaves both counters unchanged or
increments exactly one of them by exactly one, so done + fail is
monotonically non-decreasing within the run.  (A reset interleaved
mid-run can violate the bound — see the counterexample.) -/
theorem c3_counter_conservation (n : Nat) (d : ℚ) (now : Nat)
    (tr : List Act) (s' : Sys) (hnr : NoReset tr)
    (hsteps : Steps ⟨initState n d now, LoopPC.body n⟩ tr s') :
    s'.st.done + s'.st.fail ≤ s'.st.target ∧
    (∀ (a : Act) (s'' : Sys), a.isReset = false → Step s' a s'' →
      (s''.st.done = s'.st.done ∧ s''.st.fail = s'.st.fail) ∨
      (s''.st.done = s'.st.done + 1 ∧ s''.st.fail = s'.st.fail) ∨
      (s''.st.fail = s'.st.fail + 1 ∧ s''.st.done = s'.st.done)) := by
  have hinv := inv_steps hsteps hnr (inv_initState n d now)
  refine ⟨?_, ?_⟩
  · have h := hinv.2.1
    omega
  · intro a s'' hr hstep
    exact counters_step hstep hr hinv

/-- C3 witness: the conservation bound after one concrete reset-free
step from a freshly initialized run. -/
theorem c3_counter_conservation_witness :
    NoReset [Act.checkA] ∧
    Steps ⟨initState 1 1 0, LoopPC.body 1⟩ [Act.checkA]
      ⟨initState 1 1 0, LoopPC.work 1⟩ ∧
    (⟨initState 1 1 0, LoopPC.work 1⟩ : Sys).st.done +
      (⟨initState 1 1 0, LoopPC.work 1⟩ : Sys).st.fail ≤
      (⟨initState 1 1 0, LoopPC.work 1⟩ : Sys).st.target := by
  have hsteps : Steps ⟨initState 1 1 0, LoopPC.body 1⟩ [Act.checkA]
      ⟨initState 1 1 0, LoopPC.work 1⟩ :=
    Steps.cons (Step.checkRun _ 1 rfl (by decide)) (Steps.refl _)
  have hnr : NoReset [Act.checkA] := by
    simp [NoReset, Act.isReset]
  exact ⟨hnr, hsteps,
    (c3_counter_conservation 1 1 0 [Act.checkA] _ hnr hsteps).1⟩

/-- C3 counterexample.  A run of target 1: the loop passes its check and
reads done=0, a concurrent reset zeroes the record (target becomes 0),
and the loop's pending locked write then stores done=1.  The reached
state has done + fail = 1 > target = 0, refuting the claim's bound over
all states reachable during a run. -/
theorem c3_reset_breaks_conservation :
    Steps ⟨initState 1 1 0, LoopPC.body 1⟩
      [Act.checkA, Act.fetchA, Act.readA, Act.resetA 1, Act.writeA 2]
      ⟨{ resetState 1 with done := 1, updated_at := some 2 },
        LoopPC.sleepP 1⟩ ∧
    ¬ (({ resetState 1 with done := 1, updated_at := some 2 } :
          BatchState).done +
        ({ resetState 1 with done := 1, updated_at := some 2 } :
          BatchState).fail ≤
        ({ resetState 1 with done := 1, updated_at := some 2 } :
          BatchState).target) := by
  constructor
  · refine Steps.cons (Step.checkRun _ 1 rfl (by decide)) ?_
    refine Steps.cons (Step.fetchOk _ 1) ?_
    refine Steps.cons (Step.readDone _ 1) ?_
    refine Steps.cons (Step.resetCall _ _ 1) ?_
    exact Steps.cons (Step.writeDone _ 1 0 2) (Steps.refl _)
  · decide

/-- C4 (amended).  Once the spawned loop has executed its
initialization, a state with running=false keeps running=false under
every further step (loop steps, stops and resets alike); the loop
performs at most one further locked counter write (the in-flight
iteration) before exiting, and every check it reaches exits the loop.
The loop's own mutations of running are its initialization (which sets
it TRUE — this is what breaks the claim when stop precedes it, see the
counterexample) and its exit write; no other loop step touches running. -/
theorem c4_stop_quiesces_after_init (s : Sys) (tr : List Act) (s' : Sys)
    (hs : s.st.running = false) (hpi : s.pc.pastInit = true)
    (hsteps : Steps s tr s') :
    s'.st.running = false ∧ countW tr ≤ 1 ∧
    (∀ s'' : Sys, Step s' Act.checkA s'' → s''.pc = LoopPC.exitSet) ∧
    (∀ (t t' : Sys) (a : Act), Step t a t' → a.assignsRunning = false →
      t'.st.running = t.st.running) := by
  obtain ⟨h1, h2, h3⟩ := stopped_steps hsteps hs hpi
  refine ⟨h1, ?_, ?_, ?_⟩
  · have hb := wb_le_one s.pc
    omega
  · intro s'' hstep
    cases hstep with
    | exhaust st => rfl
    | checkStop st i h hi => rfl
    | checkRun st i h hi =>
        have : st.running = false := h1
        simp [this] at h
  · intro t t' a hstep hr
    cases hstep <;> first | rfl | simp [Act.assignsRunning] at hr

/-- C4 witness: after a stop, a concrete post-initialization run with
running=false exits at its next check and performs no counter write. -/
theorem c4_stop_quiesces_after_init_witness :
    ((⟨{ initState 3 1 0 with running := false }, LoopPC.body 3⟩ :
        Sys).st.running = false) ∧
    ((⟨{ initState 3 1 0 with running := false }, LoopPC.body 3⟩ :
        Sys).pc.pastInit = true) ∧
    Steps ⟨{ initState 3 1 0 with running := false }, LoopPC.body 3⟩
      [Act.checkA, Act.exitA 5]
      ⟨{ initState 3 1 0 with running := false, updated_at := some 5 },
        LoopPC.halted⟩ ∧
    ((⟨{ initState 3 1 0 with running := false, updated_at := some 5 },
        LoopPC.halted⟩ : Sys).st.running = false) ∧
    countW [Act.checkA, Act.exitA 5] ≤ 1 := by
  have hsteps : Steps
      ⟨{ initState 3 1 0 with running := false }, LoopPC.body 3⟩
      [Act.checkA, Act.exitA 5]
      ⟨{ initState 3 1 0 with running := false, updated_at := some 5 },
        LoopPC.halted⟩ :=
    Steps.cons (Step.checkStop _ 3 rfl (by decide))
      (Steps.cons (Step.exitDone _ 5) (Steps.refl _))
  have happ := c4_stop_quiesces_after_init
    ⟨{ initState 3 1 0 with running := false }, LoopPC.body 3⟩
    [Act.checkA, Act.exitA 5]
    ⟨{ initState 3 1 0 with running := false, updated_at := some 5 },
      LoopPC.halted⟩ rfl rfl hsteps
  exact ⟨rfl, rfl, hsteps, happ.1, happ.2.1⟩

/-- C4 counterexample.  A stop call that lands after start spawned the
loop but before the loop executed its initialization: stop returns with
running=false, then the loop's initialization sets running=true and the
loop proceeds to begin an iteration — running does not stay false after
stop returns, and the run is not stopped at all. -/
theorem c4_stop_before_init_restarts :
    Step ⟨defaultState, LoopPC.init 2 1⟩ (Act.stopA 1)
      ⟨{ defaultState with running := false, updated_at := some 1 },
        LoopPC.init 2 1⟩ ∧
    Step ⟨{ defaultState with running := false, updated_at := some 1 },
        LoopPC.init 2 1⟩ (Act.initA 2)
      ⟨initState 2 1 2, LoopPC.body 2⟩ ∧
    (initState 2 1 2).running = true ∧
    Step ⟨initState 2 1 2, LoopPC.body 2⟩ Act.checkA
      ⟨initState 2 1 2, LoopPC.work 2⟩ :=
  ⟨Step.stopCall _ _ 1, Step.doInit _ 2 1 2, rfl,
    Step.checkRun _ 2 rfl (by decide)⟩

/-- C8 (amended).  Every write to the shared record is performed under
the single lock, but the loop evaluates the incremented counter value
(the argument expression of its locked update) from a read performed
BEFORE acquiring the lock.  Absent a reset interleaved between that read
and the write, the staged value always equals the current counter, so
every locked counter write increments the then-current value by exactly
one and no update is lost between the loop and concurrent stop/status
calls.  A reset interleaved in that window is lost — see the
counterexample. -/
theorem c8_locked_writes_increment_current (n : Nat) (d : ℚ) (now : Nat)
    (tr : List Act) (s' : Sys) (hnr : NoReset tr)
    (hsteps : Steps ⟨initState n d now, LoopPC.body n⟩ tr s') :
    (∀ i v, s'.pc = LoopPC.writeD i v → v = s'.st.done) ∧
    (∀ i e v, s'.pc = LoopPC.writeF i e v → v = s'.st.fail) ∧
    (∀ (now2 : Nat) (s'' : Sys), Step s' (Act.writeA now2) s'' →
      (s''.st.done = s'.st.done + 1 ∧ s''.st.fail = s'.st.fail) ∨
      (s''.st.fail = s'.st.fail + 1 ∧ s''.st.done = s'.st.done)) := by
  obtain ⟨hpi, hle, hok⟩ := inv_steps hsteps hnr (inv_initState n d now)
  refine ⟨?_, ?_, ?_⟩
  · intro i v hpc
    rw [hpc] at hok
    exact hok.2
  · intro i e v hpc
    rw [hpc] at hok
    exact hok.2
  · intro now2 s'' hstep
    cases hstep with
    | writeDone st i v now3 =>
        have hok' : 1 ≤ i ∧ v = st.done := hok
        exact Or.inl ⟨by simp [hok'.2], rfl⟩
    | writeFail st i e v now3 =>
        have hok' : 1 ≤ i ∧ v = st.fail := hok
        exact Or.inr ⟨by simp [hok'.2], rfl⟩

/-- C8 witness: the staged-value property at a concrete reachable state
with a pending locked write. -/
theorem c8_locked_writes_increment_current_witness :
    NoReset [Act.checkA, Act.fetchA, Act.readA] ∧
    Steps ⟨initState 1 1 0, LoopPC.body 1⟩
      [Act.checkA, Act.fetchA, Act.readA]
      ⟨initState 1 1 0, LoopPC.writeD 1 0⟩ ∧
    (0 : Nat) = (⟨initState 1 1 0, LoopPC.writeD 1 0⟩ : Sys).st.done := by
  have hsteps : Steps ⟨initState 1 1 0, LoopPC.body 1⟩
      [Act.checkA, Act.fetchA, Act.readA]
      ⟨initState 1 1 0, LoopPC.writeD 1 0⟩ :=
    Steps.cons (Step.checkRun _ 1 rfl (by decide))
      (Steps.cons (Step.fetchOk _ 1)
        (Steps.cons (Step.readDone _ 1) (Steps.refl _)))
  have hnr : NoReset [Act.checkA, Act.fetchA, Act.readA] := by
    simp [NoReset, Act.isReset]
  exact ⟨hnr, hsteps,
    (c8_locked_writes_increment_current 1 1 0 _ _ hnr hsteps).1 1 0 rfl⟩

/-- C8 counterexample.  First iteration completes (done=1); the second
iteration reads done=1 outside the lock; a concurrent reset then zeroes
the record; the loop's locked write stores the stale 1+1: a single write
step takes done from 0 to 2, so the reset's update is lost — the
read-modify-write was not performed atomically under the lock. -/
theorem c8_stale_read_lost_update :
    Steps ⟨initState 2 1 0, LoopPC.body 2⟩
      [Act.checkA, Act.fetchA, Act.readA, Act.writeA 1, Act.sleepA,
        Act.checkA, Act.fetchA, Act.readA, Act.resetA 2]
      ⟨resetState 2, LoopPC.writeD 1 1⟩ ∧
    (resetState 2).done = 0 ∧
    Step ⟨resetState 2, LoopPC.writeD 1 1⟩ (Act.writeA 3)
      ⟨{ resetState 2 with done := 2, updated_at := some 3 },
        LoopPC.sleepP 1⟩ ∧
    ({ resetState 2 with done := 2, updated_at := some 3 } :
        BatchState).done = 2 := by
  refine ⟨?_, rfl, ?_, rfl⟩
  · refine Steps.cons (Step.checkRun _ 2 rfl (by decide)) ?_
    refine Steps.cons (Step.fetchOk _ 2) ?_
    refine Steps.cons (Step.readDone _ 2) ?_
    refine Steps.cons (Step.writeDone _ 2 0 1) ?_
    refine Steps.cons (Step.sleepDone _ 2) ?_
    refine Steps.cons (Step.checkRun _ 1 rfl (by decide)) ?_
    refine Steps.cons (Step.fetchOk _ 1) ?_
    refine Steps.cons (Step.readDone _ 1) ?_
    exact Steps.cons (Step.resetCall _ _ 2) (Steps.refl _)
  · exact Step.writeDone _ 1 1 3

/-- C5.  An iteration failure never terminates the loop: among the loop
thread's own steps, only the per-iteration check leads to loop exit, and
it does so exactly when the count is exhausted or running was observed
false; a failed iteration (the fetch-or-persist attempt raising `e`)
increments fail by one, sets last_error to the type-and-message
description of `e`, freshens updated_at, and proceeds to the next
iteration; and no loop step other than the run-start initialization ever
clears last_error. -/
theorem c5_iteration_failure_nonfatal :
    (∀ (s : Sys) (a : Act) (s' : Sys), Step s a s' → a.isLoop = true →
      s'.pc = LoopPC.exitSet →
      ∃ i, s.pc = LoopPC.body i ∧ (i = 0 ∨ s.st.running = false)) ∧
    (∀ (st : BatchState) (i : Nat) (e : PyError) (now : Nat) (s' : Sys),
      Steps ⟨st, LoopPC.work i⟩
        [Act.failA e, Act.readA, Act.writeA now, Act.sleepA] s' →
      s' = ⟨{ st with
                fail := st.fail + 1,
                last_error := some (errString e),
                updated_at := some now }, LoopPC.body (i - 1)⟩) ∧
    (∀ (s : Sys) (a : Act) (s' : Sys), Step s a s' → a.isLoop = true →
      a.isInit = false → s'.st.last_error = none →
      s.st.last_error = none) := by
  refine ⟨?_, ?_, ?_⟩
  · intro s a s' hstep hL hpc
    cases hstep with
    | exhaust st => exact ⟨0, rfl, Or.inl rfl⟩
    | checkStop st i h hi => exact ⟨i, rfl, Or.inr h⟩
    | doInit st n d now => simp at hpc
    | checkRun st i h hi => simp at hpc
    | fetchOk st i => simp at hpc
    | fetchFail st i e => simp at hpc
    | readDone st i => simp at hpc
    | writeDone st i v now => simp at hpc
    | readFail st i e => simp at hpc
    | writeFail st i e v now => simp at hpc
    | sleepDone st i => simp at hpc
    | exitDone st now => simp at hpc
    | stopCall st pc now => simp [Act.isLoop] at hL
    | resetCall st pc now => simp [Act.isLoop] at hL
  · intro st i e now s' hsteps
    cases hsteps with
    | cons h1 rest1 =>
        cases h1
        cases rest1 with
        | cons h2 rest2 =>
            cases h2
            cases rest2 with
            | cons h3 rest3 =>
                cases h3
                cases rest3 with
                | cons h4 rest4 =>
                    cases h4
                    cases rest4
                    rfl
  · intro s a s' hstep hL hI hne
    cases hstep with
    | doInit st n d now => simp [Act.isInit] at hI
    | writeFail st i e v now => simp at hne
    | stopCall st pc now => simp [Act.isLoop] at hL
    | resetCall st pc now => simp [Act.isLoop] at hL
    | exhaust st => exact hne
    | checkRun st i h hi => exact hne
    | checkStop st i h hi => exact hne
    | fetchOk st i => exact hne
    | fetchFail st i e => exact hne
    | readDone st i => exact hne
    | writeDone st i v now => exact hne
    | readFail st i e => exact hne
    | sleepDone st i => exact hne
    | exitDone st now => exact hne

/-- C5 witness: a concrete failed iteration updates exactly the failure
fields and proceeds to the next loop body. -/
theorem c5_iteration_failure_nonfatal_witness :
    Steps ⟨initState 2 1 0, LoopPC.work 2⟩
      [Act.failA (⟨"ValueError", "boom"⟩ : PyError), Act.readA,
        Act.writeA 4, Act.sleepA]
      ⟨{ initState 2 1 0 with
          fail := 1,
          last_error := some (errString (⟨"ValueError", "boom"⟩ : PyError)),
          updated_at := some 4 }, LoopPC.body 1⟩ ∧
    (⟨{ initState 2 1 0 with
          fail := 1,
          last_error := some (errString (⟨"ValueError", "boom"⟩ : PyError)),
          updated_at := some 4 }, LoopPC.body 1⟩ : Sys) =
      ⟨{ initState 2 1 0 with
          fail := (initState 2 1 0).fail + 1,
          last_error := some (errString (⟨"ValueError", "boom"⟩ : PyError)),
          updated_at := some 4 }, LoopPC.body (2 - 1)⟩ := by
  have hsteps : Steps ⟨initState 2 1 0, LoopPC.work 2⟩
      [Act.failA (⟨"ValueError", "boom"⟩ : PyError), Act.readA,
        Act.writeA 4, Act.sleepA]
      ⟨{ initState 2 1 0 with
          fail := 1,
          last_error := some (errString (⟨"ValueError", "boom"⟩ : PyError)),
          updated_at := some 4 }, LoopPC.body 1⟩ :=
    Steps.cons (Step.fetchFail _ 2 _)
      (Steps.cons (Step.readFail _ 2 _)
        (Steps.cons (Step.writeFail _ 2 _ 0 4)
          (Steps.cons (Step.sleepDone _ 2) (Steps.refl _))))
  exact ⟨hsteps,
    c5_iteration_failure_nonfatal.2.1 (initState 2 1 0) 2 _ 4 _ hsteps⟩

/-- Appending a row under a fresh key yields exactly one row for that
key, holding the appended price, and makes the key present. -/
theorem upsert_append_new (db : PriceDb) (ts : String) (p : ℚ)
    (h : hasKey db ts = false) :
    countKey (db ++ [(ts, p)]) ts = 1 ∧
    getKey (db ++ [(ts, p)]) ts = some p ∧
    hasKey (db ++ [(ts, p)]) ts = true := by
  induction db with
  | nil =>
      refine ⟨?_, ?_, ?_⟩ <;> simp [countKey, getKey, hasKey]
  | cons r rest ih =>
      simp only [hasKey, List.any_cons, Bool.or_eq_false_iff] at h
      obtain ⟨h1, h2⟩ := h
      obtain ⟨g1, g2, g3⟩ := ih h2
      refine ⟨?_, ?_, ?_⟩
      · simpa [countKey, List.filter_cons, h1] using g1
      · simp only [List.cons_append, getKey, List.find?_cons, h1,
          if_false, Bool.false_eq_true]
        exact g2
      · simp only [List.cons_append, hasKey, List.any_cons, h1,
          Bool.false_or]
        exact g3

/-- C9.  The Price Store upsert is idempotent on both backends: writing
price p1 under a fresh timestamp key and then writing p2 under the same
key succeeds without error on both calls, leaves exactly one row for
that key, and the row still holds the first-written p1 (the duplicate is
accepted without overwriting). -/
theorem c9_upsert_idempotent (db : PriceDb) (ts : String) (p1 p2 : ℚ)
    (h : hasKey db ts = false) :
    upsert_price_pg (upsert_price_pg db ts p1) ts p2 = db ++ [(ts, p1)] ∧
    upsert_price_sqlite (upsert_price_sqlite db ts p1 none) ts p2 none =
      db ++ [(ts, p1)] ∧
    upsert_price_sqliteE db ts p1 none =
      Except.ok (db ++ [(ts, p1)]) ∧
    upsert_price_sqliteE (db ++ [(ts, p1)]) ts p2 none =
      Except.ok (db ++ [(ts, p1)]) ∧
    countKey (db ++ [(ts, p1)]) ts = 1 ∧
    getKey (db ++ [(ts, p1)]) ts = some p1 := by
  obtain ⟨g1, g2, g3⟩ := upsert_append_new db ts p1 h
  refine ⟨?_, ?_, ?_, ?_, g1, g2⟩
  · simp [upsert_price_pg, h, g3]
  · simp [upsert_price_sqlite, upsert_price_sqliteE, sqlite_insert, h, g3]
  · simp [upsert_price_sqliteE, sqlite_insert, h]
  · simp [upsert_price_sqliteE, sqlite_insert, g3]

/-- C9 witness: both upserts at a concrete fresh key. -/
theorem c9_upsert_idempotent_witness :
    hasKey [] "t" = false ∧
    upsert_price_pg (upsert_price_pg [] "t" 1) "t" 2 = [("t", 1)] ∧
    countKey [("t", (1 : ℚ))] "t" = 1 ∧
    getKey [("t", (1 : ℚ))] "t" = some 1 := by
  have h := c9_upsert_idempotent [] "t" 1 2 rfl
  exact ⟨rfl, by simpa using h.1, by simpa using h.2.2.2.2.1,
    by simpa using h.2.2.2.2.2⟩

/-- C10.  On the SQLite backend the upsert's try/except swallows every
raised error, not only duplicate-key conflicts: the call always returns
normally; consequently a batch iteration whose fetch succeeded is
counted as done — incrementing done and freshening updated_at only —
even when the persist INSERT failed for an arbitrary reason, in which
case the table is left unchanged and neither fail nor last_error is
touched. -/
theorem c10_sqlite_swallows_all_errors (db : PriceDb) (ts : String)
    (p : ℚ) (fault : Option PyError) (st : BatchState) (now : Nat) :
    upsert_price_sqliteE db ts p fault =
      Except.ok (upsert_price_sqlite db ts p fault) ∧
    batch_iteration st now (Except.ok (ts, p)) db fault =
      ({ st with done := st.done + 1, updated_at := some now },
        upsert_price_sqlite db ts p fault) ∧
    (∀ e, fault = some e → upsert_price_sqlite db ts p fault = db) := by
  have h1 : upsert_price_sqliteE db ts p fault =
      Except.ok (upsert_price_sqlite db ts p fault) := by
    cases fault with
    | none =>
        by_cases hk : hasKey db ts <;>
          simp [upsert_price_sqliteE, upsert_price_sqlite, sqlite_insert, hk]
    | some e =>
        simp [upsert_price_sqliteE, upsert_price_sqlite, sqlite_insert]
  refine ⟨h1, ?_, ?_⟩
  · simp [batch_iteration, h1]
  · intro e he
    subst he
    simp [upsert_price_sqlite, upsert_price_sqliteE, sqlite_insert]

/-- C10 witness: a concrete non-conflict persist fault is swallowed and
the iteration is counted as done. -/
theorem c10_sqlite_swallows_all_errors_witness :
    (some (⟨"OperationalError", "disk error"⟩ : PyError) =
      some (⟨"OperationalError", "disk error"⟩ : PyError)) ∧
    upsert_price_sqlite [] "t" 1
      (some (⟨"OperationalError", "disk error"⟩ : PyError)) = [] ∧
    batch_iteration defaultState 3 (Except.ok ("t", 1)) []
      (some (⟨"OperationalError", "disk error"⟩ : PyError)) =
      ({ defaultState with done := 1, updated_at := some 3 }, []) := by
  have h := c10_sqlite_swallows_all_errors [] "t" 1
    (some (⟨"OperationalError", "disk error"⟩ : PyError)) defaultState 3
  have h3 := h.2.2 (⟨"OperationalError", "disk error"⟩ : PyError) rfl
  refine ⟨rfl, h3, ?_⟩
  rw [h.2.1, h3]
  rfl
